import Mathlib

/-!
# EchoScribe — shallow embedding and verification

A shallow embedding of the upload → conversion → transcription pipeline of
the EchoScribe repository (`app/services/file_utils.py`,
`app/services/conversion.py`, `app/services/transcribe.py`, `app/api/v1.py`),
together with theorems settling the frozen claims about it.

Modelling conventions:
* The filesystem is a map from path strings to file contents
  (`FS := String → Option String`); byte strings are modelled as `String`.
* Metadata JSON documents (`data/uploads_meta/<file_id>.json`) live in a
  separate map keyed by file id (`MetaStore`); a record is a structure with
  `Option` fields, `none` meaning the JSON key is absent.
* External collaborators (ffmpeg/ffprobe, the whisper model, injected I/O
  faults) are environment parameters threaded through the functions.
* Timestamps are opaque strings supplied by the environment.
-/

namespace EchoScribe

/-- Filesystem: path → file contents (`none` = no file at that path). -/
def FS : Type := String → Option String

def FS.empty : FS := fun _ => none

/-- Write (create or overwrite) the file at `p` with contents `c`. -/
def FS.write (fs : FS) (p c : String) : FS :=
  fun q => if q = p then some c else fs q

/-- `Path.unlink`: remove the file at `p`. -/
def FS.unlink (fs : FS) (p : String) : FS :=
  fun q => if q = p then none else fs q

/-! ## Path helpers (pathlib semantics used by the code) -/

/-- Split a character list at every occurrence of a separator (semantics of
`str.split` on a one-character separator, implemented structurally). -/
def splitOnChar (sep : Char) : List Char → List (List Char)
  | [] => [[]]
  | c :: rest =>
      let r := splitOnChar sep rest
      if c = sep then [] :: r
      else
        match r with
        | [] => [[c]]
        | h :: t => (c :: h) :: t

/-- `Path(p).name`: final path component. -/
def basename (p : String) : String :=
  (((splitOnChar '/' p.data).getLast?).getD []).asString

/-- Index of the last `.` in a list of characters, if any. -/
def lastDotIdx (cs : List Char) : Option Nat :=
  match (cs.reverse.findIdx? (fun c => c = '.')) with
  | some j => some (cs.length - 1 - j)
  | none => none

/-- `Path(p).stem`: final component without its last suffix.  A leading dot
is not a suffix separator (CPython pathlib rule). -/
def stem (p : String) : String :=
  let b := basename p
  match lastDotIdx b.toList with
  | some i => if 0 < i ∧ i + 1 < b.length then (b.toList.take i).asString else b
  | none => b

/-- `Path(p).suffix`: the last extension of the final component, with the
dot, or `""` (CPython pathlib rule). -/
def pathSuffix (p : String) : String :=
  let b := basename p
  match lastDotIdx b.toList with
  | some i => if 0 < i ∧ i + 1 < b.length then (b.toList.drop i).asString else ""
  | none => ""

/-- POSIX `Path.is_absolute()`. -/
def isAbsolute (p : String) : Bool :=
  match p.data with
  | c :: _ => c = '/'
  | [] => false

/-- Python `str.lower()` on the ASCII extensions used here (implemented
character-wise so that it reduces structurally). -/
def strLower (s : String) : String :=
  String.mk (s.data.map Char.toLower)

/-! Directory layout (`app/core/config.py`).  `BASE_DIR` is the project
root; all paths the code builds from it are absolute, so `resolve()` is the
identity on them. -/

def BASE_DIR : String := "/base"

def UPLOAD_DIR : String := BASE_DIR ++ "/uploads"

def DATA_DIR : String := BASE_DIR ++ "/data"

/-! ## BlobStore: `save_upload_file` (app/services/file_utils.py) -/

/-- One read from the upload stream: a chunk of bytes, or an I/O error
raised while consuming the stream / writing to disk. -/
inductive StreamItem
  | chunk (s : String)
  | ioError
deriving DecidableEq, Repr

/-- Outcome of `save_upload_file`: bytes written, `ValueError` on exceeding
the size cap, or a propagated I/O failure. -/
inductive SaveResult
  | ok (bytesWritten : Nat)
  | payloadTooLarge (limit : Nat)
  | ioFail
deriving DecidableEq, Repr

/-- The read/write loop of `save_upload_file`: reads chunks until an empty
(falsy) chunk, accumulates `total`, and on `total > max_size` closes and
unlinks the partial file and raises; on an I/O error the exception
propagates with no cleanup (only the `with` block closes the file). -/
def saveLoop (dest : String) (maxSize : Nat) :
    List StreamItem → Nat → FS → SaveResult × FS
  | [], total, fs => (SaveResult.ok total, fs)
  | StreamItem.chunk s :: rest, total, fs =>
      if s.length = 0 then (SaveResult.ok total, fs)
      else
        let total2 := total + s.length
        if maxSize < total2 then
          (SaveResult.payloadTooLarge maxSize, fs.unlink dest)
        else
          saveLoop dest maxSize rest total2 (fs.write dest (((fs dest).getD "") ++ s))
  | StreamItem.ioError :: _, _, fs => (SaveResult.ioFail, fs)

/-- `save_upload_file(upload_file, dest_path, max_size)`: opening the
destination with mode `"wb"` creates/truncates it, then the chunk loop
runs. -/
def save_upload_file (stream : List StreamItem) (dest : String) (maxSize : Nat)
    (fs : FS) : SaveResult × FS :=
  saveLoop dest maxSize stream 0 (fs.write dest "")

/-- `DEFAULT_MAX_SIZE = 8 * 1024 * 1024`. -/
def DEFAULT_MAX_SIZE : Nat := 8 * 1024 * 1024

/-! ## MetadataStore (FileRecord JSON documents) -/

/-- The nested `extra` object of the metadata JSON.  `none` = key absent. -/
structure Extra where
  converted_name : Option String
  converted_path : Option String
  duration_seconds : Option Rat
  conversion_error : Option String
deriving DecidableEq, Repr

/-- A metadata JSON document (one per file id).  `none` = key absent.
Records written by `save_upload_metadata` carry conversion data only inside
`extra`; the top-level conversion keys model the tolerant shapes the
transcription route also accepts, and the in-memory dict returned by
`save_and_convert_upload` (which copies them to top level after writing). -/
structure Meta where
  file_id : String
  original_name : String
  stored_name : String
  mime_type : String
  size_bytes : Nat
  uploaded_at : String
  extra : Option Extra
  converted_name : Option String
  converted_path : Option String
  duration_seconds : Option Rat
  conversion_error : Option String
  transcription_status : Option String
  transcription_started_at : Option String
  transcription_finished_at : Option String
  transcription_error : Option String
  transcript_path : Option String
  transcript_saved_at : Option String
  transcript_snippet : Option String
deriving DecidableEq, Repr

/-- The metadata directory `data/uploads_meta/`: file id → JSON document. -/
def MetaStore : Type := String → Option Meta

def MetaStore.empty : MetaStore := fun _ => none

def MetaStore.set (st : MetaStore) (fid : String) (m : Meta) : MetaStore :=
  fun q => if q = fid then some m else st q

/-- A record with every optional key absent, as built by
`save_upload_metadata` before `extra` is attached. -/
def Meta.base (fid origName storedName mimeType : String) (sizeBytes : Nat)
    (uploadedAt : String) : Meta :=
  { file_id := fid
    original_name := origName
    stored_name := storedName
    mime_type := mimeType
    size_bytes := sizeBytes
    uploaded_at := uploadedAt
    extra := none
    converted_name := none
    converted_path := none
    duration_seconds := none
    conversion_error := none
    transcription_status := none
    transcription_started_at := none
    transcription_finished_at := none
    transcription_error := none
    transcript_path := none
    transcript_saved_at := none
    transcript_snippet := none }

/-- `save_upload_metadata(original_name, stored_name, mime_type, size_bytes,
extra)`: writes `data/uploads_meta/<file_id>.json` (file id = stem of the
stored name) and returns the dict written.  The persisted document carries
conversion data only under `extra`. -/
def save_upload_metadata (origName storedName mimeType : String)
    (sizeBytes : Nat) (extra : Option Extra) (now : String)
    (store : MetaStore) : Meta × MetaStore :=
  let fid := stem storedName
  let m :=
    { Meta.base fid origName storedName mimeType sizeBytes now with extra := extra }
  (m, store.set fid m)

/-! ## ConversionRunner (app/services/conversion.py) -/

/-- Outcomes of the external tools: `convert` is ffmpeg (error message, or
the WAV bytes it writes to the output path); `probe` is ffprobe composed
with `float(...)` parsing (error message or the parsed duration). -/
structure ToolEnv where
  convert : Except String String
  probe : Except String Rat

/-- `CONVERT_EXTS = {".opus", ".oga", ".ogg", ".mp3", ".m4a"}`. -/
def CONVERT_EXTS : List String := [".opus", ".oga", ".ogg", ".mp3", ".m4a"]

/-- The `try` block of `save_and_convert_upload`: run
`convert_opus_to_wav` (writing the WAV file on success) then
`get_duration_seconds`; the first raised error aborts the block. -/
def runConversion (env : ToolEnv) (convPath : String) (fs : FS) :
    FS × Except String Rat :=
  match env.convert with
  | Except.error msg => (fs, Except.error msg)
  | Except.ok wav =>
      let fs2 := fs.write convPath wav
      match env.probe with
      | Except.error msg => (fs2, Except.error msg)
      | Except.ok d => (fs2, Except.ok d)

/-- The combined tool outcome the `try` block observes (error of whichever
tool fails first, else the probed duration). -/
def toolOutcome (env : ToolEnv) : Except String Rat :=
  match env.convert with
  | Except.error msg => Except.error msg
  | Except.ok _ => env.probe

/-! ## UploadOrchestrator: `save_and_convert_upload` and the
`POST /upload` route -/

/-- Result of `save_and_convert_upload`: the returned metadata dict, or the
exception propagated from `save_upload_file`. -/
inductive SCResult
  | ok (m : Meta)
  | tooLarge (limit : Nat)
  | ioFail
deriving DecidableEq, Repr

/-- `save_and_convert_upload(upload_file, dest_path, max_size, sample_rate)`:
save the blob; if the (lower-cased) extension is in `CONVERT_EXTS`, attempt
conversion into `uploads/converted/<stem>.wav` recording either the
converted fields or `conversion_error` in `extra`; write the metadata
document; return the dict with conversion fields copied to top level. -/
def save_and_convert_upload (origName mimeType : String)
    (stream : List StreamItem) (dest : String) (maxSize : Nat)
    (env : ToolEnv) (now : String) (fs : FS) (store : MetaStore) :
    SCResult × FS × MetaStore :=
  match save_upload_file stream dest maxSize fs with
  | (SaveResult.payloadTooLarge l, fs1) => (SCResult.tooLarge l, fs1, store)
  | (SaveResult.ioFail, fs1) => (SCResult.ioFail, fs1, store)
  | (SaveResult.ok sizeBytes, fs1) =>
      let sfx := strLower (pathSuffix dest)
      if sfx ∈ CONVERT_EXTS then
        let convName := stem dest ++ ".wav"
        let convPath := UPLOAD_DIR ++ "/converted/" ++ convName
        match runConversion env convPath fs1 with
        | (fs2, Except.ok dur) =>
            let extra : Extra :=
              { converted_name := some convName
                converted_path := some convPath
                duration_seconds := some dur
                conversion_error := none }
            let ms := save_upload_metadata origName (basename dest) mimeType
              sizeBytes (some extra) now store
            let m2 := { ms.1 with
              converted_name := some convName
              converted_path := some convPath
              duration_seconds := some dur }
            (SCResult.ok m2, fs2, ms.2)
        | (fs2, Except.error msg) =>
            let extra : Extra :=
              { converted_name := none
                converted_path := none
                duration_seconds := none
                conversion_error := some msg }
            let ms := save_upload_metadata origName (basename dest) mimeType
              sizeBytes (some extra) now store
            let m2 := { ms.1 with conversion_error := some msg }
            (SCResult.ok m2, fs2, ms.2)
      else
        let ms := save_upload_metadata origName (basename dest) mimeType
          sizeBytes none now store
        (SCResult.ok ms.1, fs1, ms.2)

/-- `ALLOWED_MIME_TYPES` of `app/api/v1.py`. -/
def ALLOWED_MIME_TYPES : List String :=
  ["audio/ogg", "audio/opus", "audio/mpeg", "audio/wav", "audio/x-wav",
   "audio/oga", "audio/mp3"]

/-- `MAX_FILE_SIZE = 8 * 1024 * 1024` (app/api/v1.py). -/
def MAX_FILE_SIZE : Nat := 8 * 1024 * 1024

/-- HTTP outcome of the upload route. -/
inductive UploadResponse
  | r400 (detail : String)
  | r413 (detail : String)
  | r500 (detail : String)
  | r200 (m : Meta)
deriving DecidableEq, Repr

/-- `POST /upload` (`upload_audio`): validate the declared MIME type, then
save-and-convert under `uploads/<stored_filename>`.  `stored_filename` is
the random `gen_uuid_filename` result, supplied as a parameter. -/
def upload_audio (mimeType origName storedFilename : String)
    (stream : List StreamItem) (env : ToolEnv) (now : String)
    (fs : FS) (store : MetaStore) : UploadResponse × FS × MetaStore :=
  if mimeType ∉ ALLOWED_MIME_TYPES then
    (UploadResponse.r400 ("Unsupported audio type: " ++ mimeType), fs, store)
  else
    let savePath := UPLOAD_DIR ++ "/" ++ storedFilename
    match save_and_convert_upload origName mimeType stream savePath
        MAX_FILE_SIZE env now fs store with
    | (SCResult.tooLarge l, fs1, store1) =>
        (UploadResponse.r413
          ("File size exceeds max limit of " ++ toString l ++ " bytes"),
          fs1, store1)
    | (SCResult.ioFail, fs1, store1) =>
        (UploadResponse.r500 "Failed to save/convert file", fs1, store1)
    | (SCResult.ok m, fs1, store1) => (UploadResponse.r200 m, fs1, store1)

/-! ## TranscriptionEngine: `transcribe_audio`
(app/services/transcribe.py) -/

/-- Environment of one `transcribe_audio` call: the inference outcome (the
raw `result["text"]` or the exception message), whether the transcript-file
write and the metadata writes succeed (`_write_metadata` swallows its own
failures), and the current timestamp. -/
structure TEnv where
  inference : Except String String
  transcriptWriteOk : Bool
  metaWriteOk : Bool
  now : String

/-- Combined mutable state: blob/transcript filesystem and metadata store. -/
structure SysState where
  fs : FS
  store : MetaStore

/-- Path of the transcript file for a file id:
`data/transcripts/<file_id>.txt`. -/
def transcriptPath (fid : String) : String :=
  DATA_DIR ++ "/transcripts/" ++ fid ++ ".txt"

/-- Errors `transcribe_audio` raises: `FileNotFoundError` for a missing
input, or the propagated inference exception. -/
inductive TErr
  | notFound (msg : String)
  | inferFail (msg : String)
deriving DecidableEq, Repr

/-- Output of `transcribe_audio`: the returned text or raised error, an
observable flag recording whether the inference engine was invoked, and the
post state. -/
structure TOut where
  result : Except TErr String
  ranInference : Bool
  st : SysState

/-- `dict.setdefault`: keep an existing key, fill in an absent one. -/
def setD (o : Option α) (v : α) : Option α :=
  some (o.getD v)

/-- `_write_metadata`: best-effort, failures swallowed. -/
def writeMeta (ok : Bool) (store : MetaStore) (fid : String) (m : Meta) :
    MetaStore :=
  if ok then store.set fid m else store

/-- `transcribe_audio(path, update_metadata)`.  Raises `FileNotFoundError`
if the input is missing.  If the transcript file already exists, fills in
absent status fields via `setdefault` and returns the stored text without
inference.  Otherwise marks `running`, runs inference, and on success
writes the transcript (write failure swallowed) and marks `done` with
transcript path and snippet; on failure marks `failed` and re-raises. -/
def transcribe_audio (path : String) (updateMetadata : Bool) (env : TEnv)
    (st : SysState) : TOut :=
  if (st.fs path).isNone then
    ⟨Except.error (TErr.notFound ("Audio file not found: " ++ path)), false, st⟩
  else
    let fid := stem path
    let tpath := transcriptPath fid
    match st.fs tpath with
    | some txt =>
        let store2 :=
          if updateMetadata then
            match st.store fid with
            | some m =>
                writeMeta env.metaWriteOk st.store fid
                  { m with
                    transcription_status := setD m.transcription_status "done"
                    transcript_path := setD m.transcript_path tpath
                    transcript_saved_at := setD m.transcript_saved_at env.now }
            | none => st.store
          else st.store
        ⟨Except.ok txt, false, ⟨st.fs, store2⟩⟩
    | none =>
        let store1 :=
          if updateMetadata then
            match st.store fid with
            | some m =>
                writeMeta env.metaWriteOk st.store fid
                  { m with
                    transcription_status := some "running"
                    transcription_started_at := some env.now }
            | none => st.store
          else st.store
        match env.inference with
        | Except.error e =>
            let store2 :=
              if updateMetadata then
                match store1 fid with
                | some m =>
                    writeMeta env.metaWriteOk store1 fid
                      { m with
                        transcription_status := some "failed"
                        transcription_error := some e
                        transcription_finished_at := some env.now }
                | none => store1
              else store1
            ⟨Except.error (TErr.inferFail e), true, ⟨st.fs, store2⟩⟩
        | Except.ok raw =>
            let text := raw.trim
            let fs2 := if env.transcriptWriteOk then st.fs.write tpath text else st.fs
            let store2 :=
              if updateMetadata then
                match store1 fid with
                | some m =>
                    writeMeta env.metaWriteOk store1 fid
                      { m with
                        transcription_status := some "done"
                        transcription_finished_at := some env.now
                        transcript_path := some tpath
                        transcript_saved_at := some env.now
                        transcript_snippet := some (text.take 512) }
                | none => store1
              else store1
            ⟨Except.ok text, true, ⟨fs2, store2⟩⟩

/-! ## TranscriptionOrchestrator: `GET /transcribe/{file_id}`
(app/api/v1.py) -/

/-- Python truthiness on an optional string: an absent key and the empty
string are both falsy. -/
def truthy (o : Option String) : Option String :=
  match o with
  | some s => if s = "" then none else some s
  | none => none

/-- The tolerant `converted_path` lookup of the route: top-level
`converted_path`; then `extra.converted_path` or `extra.converted_name`;
then top-level `converted_name` joined under `uploads/converted/`. -/
def lookupConvertedPath (m : Meta) : Option String :=
  let cp1 :=
    match truthy m.converted_path with
    | some p => some p
    | none =>
        match m.extra with
        | some e =>
            match truthy e.converted_path with
            | some p => some p
            | none => truthy e.converted_name
        | none => none
  match cp1 with
  | some p => some p
  | none =>
      match truthy m.converted_name with
      | some n => some ("uploads/converted/" ++ n)
      | none => none

/-- The existence check of the route: use the path if it exists; else, when
it is relative, retry under `Path(DATA_DIR).parent` (= the project root). -/
def resolveExisting (fs : FS) (cp : String) : Option String :=
  if (fs cp).isSome then some cp
  else if isAbsolute cp then none
  else
    let alt := BASE_DIR ++ "/" ++ cp
    if (fs alt).isSome then some alt else none

/-- HTTP outcome of the transcription route. -/
inductive TranscribeResponse
  | r400 (detail : String)
  | r404 (detail : String)
  | r500 (detail : String)
  | r200 (fileId transcript tpath status : String)
deriving DecidableEq, Repr

/-- `GET /transcribe/{file_id}` (`get_transcript`): look up the metadata
document, resolve an existing converted-audio path, delegate to
`transcribe_audio`, and map outcomes to HTTP statuses. -/
def get_transcript (fid : String) (env : TEnv) (st : SysState) :
    TranscribeResponse × SysState :=
  match st.store fid with
  | none => (TranscribeResponse.r404 "file metadata not found", st)
  | some m =>
      match lookupConvertedPath m with
      | none =>
          (TranscribeResponse.r400 "converted audio path not available in metadata", st)
      | some cp =>
          match resolveExisting st.fs cp with
          | none => (TranscribeResponse.r404 "converted audio file not found", st)
          | some cp2 =>
              let out := transcribe_audio cp2 true env st
              match out.result with
              | Except.error (TErr.notFound _) =>
                  (TranscribeResponse.r404 "converted audio file not found", out.st)
              | Except.error (TErr.inferFail e) =>
                  (TranscribeResponse.r500 ("transcription failed: " ++ e), out.st)
              | Except.ok txt =>
                  (TranscribeResponse.r200 fid txt (transcriptPath fid) "done",
                    out.st)

/-! ## `_load_model`: double-checked locking under cooperative
interleaving (app/services/transcribe.py, lines 28-56)

Each concurrent caller of `_load_model` runs the program

  if _MODEL is not None: return _MODEL        -- `start`
  async with _MODEL_LOCK:                     -- `waitLock` → `inLock`
    if _MODEL is not None: return _MODEL      -- `inLock`
    _MODEL = await run_in_executor(load)      -- `loading`
  return _MODEL                               -- `done`

Interleaving happens at the await points (lock acquisition and the executor
load); each transition below is one atomic segment between awaits.
`loads` counts invocations of the blocking model load. -/

/-- Program counter of one `_load_model` caller. -/
inductive LoadPC
  | start
  | waitLock
  | inLock
  | loading
  | done
deriving DecidableEq, Repr

/-- Shared state of `n` concurrent `_load_model` callers: whether `_MODEL`
is set, who holds `_MODEL_LOCK`, each task's position, and the number of
model-load invocations performed so far. -/
structure LoadState (n : Nat) where
  modelLoaded : Bool
  lockHolder : Option (Fin n)
  pc : Fin n → LoadPC
  loads : Nat

/-- Initial state: no model, lock free, every caller at the fast-path
check, zero loads. -/
def LoadState.init (n : Nat) : LoadState n :=
  ⟨false, none, fun _ => LoadPC.start, 0⟩

/-- One atomic segment of one caller. -/
inductive LoadStep {n : Nat} : LoadState n → LoadState n → Prop
  | checkHit (st : LoadState n) (i : Fin n)
      (hp : st.pc i = LoadPC.start) (hm : st.modelLoaded = true) :
      LoadStep st ⟨st.modelLoaded, st.lockHolder,
        Function.update st.pc i LoadPC.done, st.loads⟩
  | checkMiss (st : LoadState n) (i : Fin n)
      (hp : st.pc i = LoadPC.start) (hm : st.modelLoaded = false) :
      LoadStep st ⟨st.modelLoaded, st.lockHolder,
        Function.update st.pc i LoadPC.waitLock, st.loads⟩
  | acquire (st : LoadState n) (i : Fin n)
      (hp : st.pc i = LoadPC.waitLock) (hl : st.lockHolder = none) :
      LoadStep st ⟨st.modelLoaded, some i,
        Function.update st.pc i LoadPC.inLock, st.loads⟩
  | recheckHit (st : LoadState n) (i : Fin n)
      (hp : st.pc i = LoadPC.inLock) (hm : st.modelLoaded = true) :
      LoadStep st ⟨st.modelLoaded, none,
        Function.update st.pc i LoadPC.done, st.loads⟩
  | recheckMiss (st : LoadState n) (i : Fin n)
      (hp : st.pc i = LoadPC.inLock) (hm : st.modelLoaded = false) :
      LoadStep st ⟨st.modelLoaded, st.lockHolder,
        Function.update st.pc i LoadPC.loading, st.loads⟩
  | loadDone (st : LoadState n) (i : Fin n)
      (hp : st.pc i = LoadPC.loading) :
      LoadStep st ⟨true, none,
        Function.update st.pc i LoadPC.done, st.loads + 1⟩

/-- Reachability from the initial state under arbitrary interleaving. -/
inductive LoadReach {n : Nat} : LoadState n → Prop
  | init : LoadReach (LoadState.init n)
  | step {s s' : LoadState n} : LoadReach s → LoadStep s s' → LoadReach s'

/-- Inductive invariant of the double-checked locking protocol: the lock
protects the critical section, a load only runs while the model is absent,
the load count tracks the model flag, and a finished caller has seen the
model loaded. -/
def LoadInv {n : Nat} (st : LoadState n) : Prop :=
  (∀ i, st.pc i = LoadPC.inLock ∨ st.pc i = LoadPC.loading →
    st.lockHolder = some i) ∧
  (∀ i, st.pc i = LoadPC.loading → st.modelLoaded = false) ∧
  (st.modelLoaded = false → st.loads = 0) ∧
  (st.modelLoaded = true → st.loads = 1) ∧
  (∀ i, st.pc i = LoadPC.done → st.modelLoaded = true)

/-! ## Auxiliary measures on streams, and a concrete `_load_model` run -/

/-- A stream consisting only of nonempty chunks (a normal upload body:
no injected I/O faults, no premature empty read). -/
def goodChunks (items : List StreamItem) : Bool :=
  items.all fun x =>
    match x with
    | StreamItem.chunk s => s.length != 0
    | StreamItem.ioError => false

/-- Total number of bytes carried by the chunks of a stream. -/
def streamBytes : List StreamItem → Nat
  | [] => 0
  | StreamItem.chunk s :: rest => s.length + streamBytes rest
  | StreamItem.ioError :: rest => streamBytes rest

/-- A concrete single-caller `_load_model` run used as a witness:
initial state. -/
def demoS0 : LoadState 1 := LoadState.init 1

/-- After the fast-path check misses. -/
def demoS1 : LoadState 1 :=
  ⟨false, none, Function.update demoS0.pc 0 LoadPC.waitLock, 0⟩

/-- After acquiring the lock. -/
def demoS2 : LoadState 1 :=
  ⟨false, some 0, Function.update demoS1.pc 0 LoadPC.inLock, 0⟩

/-- After the in-lock re-check misses. -/
def demoS3 : LoadState 1 :=
  ⟨false, some 0, Function.update demoS2.pc 0 LoadPC.loading, 0⟩

/-- After the model load completes and the lock is released. -/
def demoS4 : LoadState 1 :=
  ⟨true, none, Function.update demoS3.pc 0 LoadPC.done, 1⟩

/-! ## Helper lemmas -/

/-- If a nonempty-chunk stream still to be consumed overflows the cap,
the chunk loop aborts with `PayloadTooLarge` and the destination file is
gone afterwards. -/
theorem saveLoop_overflow (dest : String) (maxSize : Nat) :
    ∀ (items : List StreamItem) (total : Nat) (fs : FS),
      goodChunks items = true → total ≤ maxSize →
      maxSize < total + streamBytes items →
      (saveLoop dest maxSize items total fs).1 = SaveResult.payloadTooLarge maxSize ∧
        (saveLoop dest maxSize items total fs).2 dest = none := by
  intro items
  induction items with
  | nil =>
      intro total fs _ hle hlt
      simp only [streamBytes] at hlt
      omega
  | cons x rest ih =>
      intro total fs hg hle hlt
      cases x with
      | ioError => simp [goodChunks] at hg
      | chunk s =>
          have hg2 : goodChunks rest = true := by
            simp only [goodChunks, List.all_cons, Bool.and_eq_true] at hg
            exact hg.2
          have hs : ¬ s.length = 0 := by
            simp only [goodChunks, List.all_cons, Bool.and_eq_true] at hg
            simpa using hg.1
          by_cases hover : maxSize < total + s.length
          · simp [saveLoop, hs, hover, FS.unlink]
          · have hle2 : total + s.length ≤ maxSize := by omega
            have hlt2 : maxSize < total + s.length + streamBytes rest := by
              simp only [streamBytes] at hlt
              omega
            have := ih (total + s.length) (fs.write dest (((fs dest).getD "") ++ s))
              hg2 hle2 hlt2
            simpa [saveLoop, hs, hover] using this

/-- `save_upload_file` on an oversized nonempty-chunk stream: aborts with
`PayloadTooLarge` and leaves no file at the destination. -/
theorem save_upload_file_overflow (stream : List StreamItem) (dest : String)
    (maxSize : Nat) (fs : FS) (hg : goodChunks stream = true)
    (hlt : maxSize < streamBytes stream) :
    (save_upload_file stream dest maxSize fs).1 = SaveResult.payloadTooLarge maxSize ∧
      (save_upload_file stream dest maxSize fs).2 dest = none := by
  have := saveLoop_overflow dest maxSize stream 0 (fs.write dest "") hg
    (Nat.zero_le _) (by omega)
  simpa [save_upload_file] using this

/-- `transcribe_audio` on a missing input raises `FileNotFoundError` and
changes nothing. -/
theorem transcribe_missing_input (path : String) (u : Bool) (env : TEnv)
    (st : SysState) (ha : st.fs path = none) :
    transcribe_audio path u env st =
      ⟨Except.error (TErr.notFound ("Audio file not found: " ++ path)), false, st⟩ := by
  simp [transcribe_audio, ha]

/-- Replay path, core facts: with the transcript file present, the stored
text is returned, inference is not invoked, and the filesystem is
untouched. -/
theorem transcribe_replay_core (path a txt : String) (env : TEnv)
    (st : SysState) (ha : st.fs path = some a)
    (htp : st.fs (transcriptPath (stem path)) = some txt) :
    (transcribe_audio path true env st).result = Except.ok txt ∧
      (transcribe_audio path true env st).ranInference = false ∧
      (transcribe_audio path true env st).st.fs = st.fs := by
  refine ⟨?_, ?_, ?_⟩ <;> simp [transcribe_audio, ha, htp]

/-- Replay path, metadata effect: with a metadata record present, absent
status fields are filled in via `setdefault` (best-effort). -/
theorem transcribe_replay_store (path a txt : String) (env : TEnv)
    (st : SysState) (m : Meta) (ha : st.fs path = some a)
    (htp : st.fs (transcriptPath (stem path)) = some txt)
    (hm : st.store (stem path) = some m) :
    (transcribe_audio path true env st).st.store =
      writeMeta env.metaWriteOk st.store (stem path)
        { m with
          transcription_status := setD m.transcription_status "done"
          transcript_path := setD m.transcript_path (transcriptPath (stem path))
          transcript_saved_at := setD m.transcript_saved_at env.now } := by
  simp [transcribe_audio, ha, htp, hm]

/-- Replay path with no metadata record: the store is untouched. -/
theorem transcribe_replay_nostore (path a txt : String) (env : TEnv)
    (st : SysState) (ha : st.fs path = some a)
    (htp : st.fs (transcriptPath (stem path)) = some txt)
    (hm : st.store (stem path) = none) :
    (transcribe_audio path true env st).st.store = st.store := by
  simp [transcribe_audio, ha, htp, hm]

/-- Fresh transcription with successful inference, core facts: the trimmed
text is returned, inference ran, and the transcript file is written exactly
when the write does not fail. -/
theorem transcribe_fresh_ok_core (path a raw : String) (env : TEnv)
    (st : SysState) (ha : st.fs path = some a)
    (htp : st.fs (transcriptPath (stem path)) = none)
    (hinf : env.inference = Except.ok raw) :
    (transcribe_audio path true env st).result = Except.ok raw.trim ∧
      (transcribe_audio path true env st).ranInference = true ∧
      (transcribe_audio path true env st).st.fs =
        (if env.transcriptWriteOk then
          st.fs.write (transcriptPath (stem path)) raw.trim else st.fs) := by
  refine ⟨?_, ?_, ?_⟩ <;> simp [transcribe_audio, ha, htp, hinf]

/-- Fresh transcription with successful inference and working metadata
writes: the record is marked `done` with finish timestamp, transcript path
and snippet (regardless of whether the transcript file write succeeded). -/
theorem transcribe_fresh_ok_store (path a raw : String) (env : TEnv)
    (st : SysState) (m : Meta) (ha : st.fs path = some a)
    (htp : st.fs (transcriptPath (stem path)) = none)
    (hinf : env.inference = Except.ok raw)
    (hm : st.store (stem path) = some m)
    (hmw : env.metaWriteOk = true) :
    (transcribe_audio path true env st).st.store (stem path) =
      some { m with
        transcription_status := some "done"
        transcription_started_at := some env.now
        transcription_finished_at := some env.now
        transcript_path := some (transcriptPath (stem path))
        transcript_saved_at := some env.now
        transcript_snippet := some (raw.trim.take 512) } := by
  simp [transcribe_audio, ha, htp, hinf, hm, hmw, writeMeta, MetaStore.set]

/-- Fresh transcription with failing inference, core facts: the inference
error is re-raised and the filesystem is untouched. -/
theorem transcribe_fresh_err_core (path a e : String) (env : TEnv)
    (st : SysState) (ha : st.fs path = some a)
    (htp : st.fs (transcriptPath (stem path)) = none)
    (hinf : env.inference = Except.error e) :
    (transcribe_audio path true env st).result = Except.error (TErr.inferFail e) ∧
      (transcribe_audio path true env st).ranInference = true ∧
      (transcribe_audio path true env st).st.fs = st.fs := by
  refine ⟨?_, ?_, ?_⟩ <;> simp [transcribe_audio, ha, htp, hinf]

/-- Fresh transcription with failing inference and working metadata writes:
the record is marked `failed` with the error message and a finish
timestamp. -/
theorem transcribe_fresh_err_store (path a e : String) (env : TEnv)
    (st : SysState) (m : Meta) (ha : st.fs path = some a)
    (htp : st.fs (transcriptPath (stem path)) = none)
    (hinf : env.inference = Except.error e)
    (hm : st.store (stem path) = some m)
    (hmw : env.metaWriteOk = true) :
    (transcribe_audio path true env st).st.store (stem path) =
      some { m with
        transcription_status := some "failed"
        transcription_started_at := some env.now
        transcription_finished_at := some env.now
        transcription_error := some e } := by
  simp [transcribe_audio, ha, htp, hinf, hm, hmw, writeMeta, MetaStore.set]

/-- When metadata writes fail they are swallowed: the store is unchanged on
every path through `transcribe_audio`. -/
theorem transcribe_nomw (path : String) (u : Bool) (env : TEnv)
    (st : SysState) (hmw : env.metaWriteOk = false) :
    (transcribe_audio path u env st).st.store = st.store := by
  cases hfs : st.fs path with
  | none => simp [transcribe_audio, hfs]
  | some a =>
    cases htp : st.fs (transcriptPath (stem path)) with
    | some txt =>
        cases hm : st.store (stem path) with
        | none => cases u <;> simp [transcribe_audio, hfs, htp, hm]
        | some m => cases u <;> simp [transcribe_audio, hfs, htp, hm, writeMeta, hmw]
    | none =>
        cases hinf : env.inference with
        | error e =>
            cases hm : st.store (stem path) with
            | none => cases u <;> simp [transcribe_audio, hfs, htp, hm, hinf]
            | some m =>
                cases u <;> simp [transcribe_audio, hfs, htp, hm, hinf, writeMeta, hmw]
        | ok raw =>
            cases hm : st.store (stem path) with
            | none => cases u <;> simp [transcribe_audio, hfs, htp, hm, hinf]
            | some m =>
                cases u <;> simp [transcribe_audio, hfs, htp, hm, hinf, writeMeta, hmw]

/-- The locking invariant holds initially. -/
theorem loadInv_init (n : Nat) : LoadInv (LoadState.init n) := by
  refine ⟨?_, ?_, ?_, ?_, ?_⟩
  · intro i h
    rcases h with h | h <;> simp [LoadState.init] at h
  · intro i h
    simp [LoadState.init] at h
  · intro _
    rfl
  · intro h
    simp [LoadState.init] at h
  · intro i h
    simp [LoadState.init] at h

/-- The locking invariant is preserved by every step. -/
theorem loadInv_step {n : Nat} {s s' : LoadState n} (hs : LoadInv s)
    (hstep : LoadStep s s') : LoadInv s' := by
  obtain ⟨A, B, C, D, E⟩ := hs
  cases hstep with
  | checkHit i hp hm =>
      refine ⟨?_, ?_, C, D, ?_⟩
      · intro j hj
        rcases eq_or_ne j i with rfl | hne
        · simp [Function.update] at hj
        · simpa using A j (by simpa [Function.update, hne] using hj)
      · intro j hj
        rcases eq_or_ne j i with rfl | hne
        · simp [Function.update] at hj
        · exact B j (by simpa [Function.update, hne] using hj)
      · intro j _
        exact hm
  | checkMiss i hp hm =>
      refine ⟨?_, ?_, C, D, ?_⟩
      · intro j hj
        rcases eq_or_ne j i with rfl | hne
        · simp [Function.update] at hj
        · simpa using A j (by simpa [Function.update, hne] using hj)
      · intro j hj
        rcases eq_or_ne j i with rfl | hne
        · simp [Function.update] at hj
        · exact B j (by simpa [Function.update, hne] using hj)
      · intro j hj
        rcases eq_or_ne j i with rfl | hne
        · simp [Function.update] at hj
        · exact E j (by simpa [Function.update, hne] using hj)
  | acquire i hp hl =>
      refine ⟨?_, ?_, C, D, ?_⟩
      · intro j hj
        rcases eq_or_ne j i with rfl | hne
        · rfl
        · exfalso
          have := A j (by simpa [Function.update, hne] using hj)
          rw [hl] at this
          exact Option.noConfusion this
      · intro j hj
        rcases eq_or_ne j i with rfl | hne
        · simp [Function.update] at hj
        · exact B j (by simpa [Function.update, hne] using hj)
      · intro j hj
        rcases eq_or_ne j i with rfl | hne
        · simp [Function.update] at hj
        · exact E j (by simpa [Function.update, hne] using hj)
  | recheckHit i hp hm =>
      refine ⟨?_, ?_, C, D, ?_⟩
      · intro j hj
        exfalso
        rcases eq_or_ne j i with rfl | hne
        · simp [Function.update] at hj
        · have h1 := A j (by simpa [Function.update, hne] using hj)
          have h2 := A i (Or.inl hp)
          rw [h1] at h2
          exact hne (Option.some.inj h2)
      · intro j hj
        rcases eq_or_ne j i with rfl | hne
        · simp [Function.update] at hj
        · exact B j (by simpa [Function.update, hne] using hj)
      · intro j _
        exact hm
  | recheckMiss i hp hm =>
      refine ⟨?_, ?_, C, D, ?_⟩
      · intro j hj
        rcases eq_or_ne j i with rfl | hne
        · exact A j (Or.inl hp)
        · exact A j (by simpa [Function.update, hne] using hj)
      · intro j hj
        exact hm
      · intro j hj
        rcases eq_or_ne j i with rfl | hne
        · simp [Function.update] at hj
        · exact E j (by simpa [Function.update, hne] using hj)
  | loadDone i hp =>
      have hmfalse : s.modelLoaded = false := B i hp
      refine ⟨?_, ?_, ?_, ?_, ?_⟩
      · intro j hj
        exfalso
        rcases eq_or_ne j i with rfl | hne
        · simp [Function.update] at hj
        · have h1 := A j (by simpa [Function.update, hne] using hj)
          have h2 := A i (Or.inr hp)
          rw [h1] at h2
          exact hne (Option.some.inj h2)
      · intro j hj
        exfalso
        rcases eq_or_ne j i with rfl | hne
        · simp [Function.update] at hj
        · have h1 := A j (Or.inr (by simpa [Function.update, hne] using hj))
          have h2 := A i (Or.inr hp)
          rw [h1] at h2
          exact hne (Option.some.inj h2)
      · intro h
        exact absurd h (by simp)
      · intro _
        simp [C hmfalse]
      · intro j _
        rfl

/-- Every reachable state of the `_load_model` protocol satisfies the
locking invariant. -/
theorem loadReach_inv {n : Nat} {s : LoadState n} (h : LoadReach s) :
    LoadInv s := by
  induction h with
  | init => exact loadInv_init n
  | step _ hstep ih => exact loadInv_step ih hstep

/-- A one-chunk stream with a nonempty chunk is a good stream. -/
theorem goodChunks_singleton (s : String) (h : s.length ≠ 0) :
    goodChunks [StreamItem.chunk s] = true := by
  simp [goodChunks, h]

/-- A one-chunk stream carries its chunk's bytes. -/
theorem streamBytes_singleton (s : String) :
    streamBytes [StreamItem.chunk s] = s.length := by
  simp [streamBytes]

/-! ## Claims -/

/-- C9: when multiple transcribe calls race on first use of the model, the
model is never loaded twice (at most one load in any reachable state, and
exactly one once any caller has returned), and the load runs inside the
mutually-exclusive critical section guarded by the lock. -/
theorem C9_single_model_load {n : Nat} {s : LoadState n} (h : LoadReach s) :
    s.loads ≤ 1 ∧
      (∀ i, s.pc i = LoadPC.loading → s.lockHolder = some i) ∧
      (∀ i, s.pc i = LoadPC.done → s.loads = 1) := by
  obtain ⟨A, B, C, D, E⟩ := loadReach_inv h
  refine ⟨?_, ?_, ?_⟩
  · cases hm : s.modelLoaded
    · simp [C hm]
    · simp [D hm]
  · intro i hi
    exact A i (Or.inr hi)
  · intro i hi
    exact D (E i hi)

/-- Witness for C9: a complete single-caller run (miss, acquire, re-check
miss, load) reaches a state where the caller is done and exactly one load
has happened. -/
theorem C9_single_model_load_witness : demoS4.loads = 1 := by
  have h0 : LoadReach demoS0 := LoadReach.init
  have h1 : LoadReach demoS1 := h0.step (LoadStep.checkMiss demoS0 0 rfl rfl)
  have h2 : LoadReach demoS2 := h1.step (LoadStep.acquire demoS1 0 rfl rfl)
  have h3 : LoadReach demoS3 := h2.step (LoadStep.recheckMiss demoS2 0 rfl rfl)
  have h4 : LoadReach demoS4 := h3.step (LoadStep.loadDone demoS3 0 rfl)
  exact (C9_single_model_load h4).2.2 0 rfl

/-- C2: an upload whose cumulative stream size exceeds the cap makes the
blob save abort with `PayloadTooLarge` and delete the partial file; the
route returns 413, no file remains at the destination, and no FileRecord is
created. -/
theorem C2_oversized_upload_rejected (mimeType origName sfn now : String)
    (stream : List StreamItem) (env : ToolEnv) (fs : FS) (store : MetaStore)
    (hmime : mimeType ∈ ALLOWED_MIME_TYPES)
    (hg : goodChunks stream = true)
    (hlt : MAX_FILE_SIZE < streamBytes stream) :
    (save_upload_file stream (UPLOAD_DIR ++ "/" ++ sfn) MAX_FILE_SIZE fs).1 =
        SaveResult.payloadTooLarge MAX_FILE_SIZE ∧
      (save_upload_file stream (UPLOAD_DIR ++ "/" ++ sfn) MAX_FILE_SIZE fs).2
        (UPLOAD_DIR ++ "/" ++ sfn) = none ∧
      (upload_audio mimeType origName sfn stream env now fs store).1 =
        UploadResponse.r413
          ("File size exceeds max limit of " ++ toString MAX_FILE_SIZE ++ " bytes") ∧
      (upload_audio mimeType origName sfn stream env now fs store).2.1
        (UPLOAD_DIR ++ "/" ++ sfn) = none ∧
      (upload_audio mimeType origName sfn stream env now fs store).2.2 = store := by
  obtain ⟨h1, h2⟩ := save_upload_file_overflow stream (UPLOAD_DIR ++ "/" ++ sfn)
    MAX_FILE_SIZE fs hg hlt
  rcases hsv : save_upload_file stream (UPLOAD_DIR ++ "/" ++ sfn) MAX_FILE_SIZE fs
    with ⟨r, fs1⟩
  rw [hsv] at h1 h2
  dsimp only at h1 h2
  subst h1
  refine ⟨rfl, h2, ?_, ?_, ?_⟩ <;>
    simp [upload_audio, hmime, save_and_convert_upload, hsv, h2]

/-- Witness for C2: a one-chunk stream of `8 MiB + 1` bytes of an allowed
MIME type is rejected with 413. -/
theorem C2_oversized_upload_rejected_witness :
    (upload_audio "audio/ogg" "voice.opus" "f.opus"
        [StreamItem.chunk (String.mk (List.replicate 8388609 'a'))]
        ⟨Except.error "unused", Except.error "unused"⟩ "t0"
        FS.empty MetaStore.empty).1 =
      UploadResponse.r413
        ("File size exceeds max limit of " ++ toString MAX_FILE_SIZE ++ " bytes") := by
  have hq : (String.mk (List.replicate 8388609 'a')).length = 8388609 := by
    rw [String.length_mk, List.length_replicate]
  have hg : goodChunks [StreamItem.chunk (String.mk (List.replicate 8388609 'a'))] = true :=
    goodChunks_singleton (String.mk (List.replicate 8388609 'a')) (by rw [hq]; decide)
  have hlt : MAX_FILE_SIZE <
      streamBytes [StreamItem.chunk (String.mk (List.replicate 8388609 'a'))] := by
    rw [streamBytes_singleton, hq]
    decide
  exact (C2_oversized_upload_rejected "audio/ogg" "voice.opus" "f.opus" "t0"
    _ _ FS.empty MetaStore.empty (by decide) hg hlt).2.2.1

/-- Counterexample to C3 as stated: an I/O error in mid-stream (after one
chunk was written) propagates as a storage failure but leaves the partial
file on disk — the unlink happens only on the size-cap path. -/
theorem C3_counterexample :
    (save_upload_file [StreamItem.chunk "ab", StreamItem.ioError]
        "/base/uploads/f.opus" 100 FS.empty).1 = SaveResult.ioFail ∧
      (save_upload_file [StreamItem.chunk "ab", StreamItem.ioError]
        "/base/uploads/f.opus" 100 FS.empty).2 "/base/uploads/f.opus" = some "ab" := by
  constructor <;> decide

/-- C3 (amended): on a size-cap overflow, `save_upload_file` deletes the
partial file, so no artifact remains at the destination; for other I/O
failures raised mid-stream a partial file may remain (see the
counterexample). -/
theorem C3_overflow_cleanup (stream : List StreamItem)
    (dest : String) (maxSize : Nat) (fs : FS)
    (hg : goodChunks stream = true) (hlt : maxSize < streamBytes stream) :
    (save_upload_file stream dest maxSize fs).1 =
        SaveResult.payloadTooLarge maxSize ∧
      (save_upload_file stream dest maxSize fs).2 dest = none :=
  save_upload_file_overflow stream dest maxSize fs hg hlt

/-- Witness for C3 (amended): cap 2, three-byte chunk. -/
theorem C3_overflow_cleanup_witness :
    (save_upload_file [StreamItem.chunk "abc"] "/base/uploads/f.opus" 2 FS.empty).2
      "/base/uploads/f.opus" = none :=
  (C3_overflow_cleanup [StreamItem.chunk "abc"] "/base/uploads/f.opus" 2
    FS.empty (by decide) (by decide)).2

/-- C4: an upload with a MIME type outside the allow-list is rejected with
400 before any disk write: filesystem and metadata store are returned
unchanged. -/
theorem C4_unsupported_mime_rejected (mimeType origName sfn now : String)
    (stream : List StreamItem) (env : ToolEnv) (fs : FS) (store : MetaStore)
    (hmime : mimeType ∉ ALLOWED_MIME_TYPES) :
    upload_audio mimeType origName sfn stream env now fs store =
      (UploadResponse.r400 ("Unsupported audio type: " ++ mimeType), fs, store) := by
  simp [upload_audio, hmime]

/-- Witness for C4: `text/plain` is rejected. -/
theorem C4_unsupported_mime_rejected_witness :
    upload_audio "text/plain" "a.txt" "f.txt" []
        ⟨Except.error "unused", Except.error "unused"⟩ "t0"
        FS.empty MetaStore.empty =
      (UploadResponse.r400 ("Unsupported audio type: " ++ "text/plain"),
        FS.empty, MetaStore.empty) :=
  C4_unsupported_mime_rejected "text/plain" "a.txt" "f.txt" "t0" []
    ⟨Except.error "unused", Except.error "unused"⟩ FS.empty MetaStore.empty
    (by decide)

/-- C5: when the saved upload has a convertible extension and conversion
(or probing) fails, the failure is non-fatal: the route still returns 200
with a FileRecord carrying `conversion_error`, and no converted artifact is
referenced (the converted fields are absent in the returned record and in
the persisted document). -/
theorem C5_conversion_failure_nonfatal (mimeType origName sfn now msg : String)
    (stream : List StreamItem) (env : ToolEnv) (fs fs1 : FS)
    (store : MetaStore) (nbytes : Nat)
    (hmime : mimeType ∈ ALLOWED_MIME_TYPES)
    (hsave : save_upload_file stream (UPLOAD_DIR ++ "/" ++ sfn) MAX_FILE_SIZE fs =
      (SaveResult.ok nbytes, fs1))
    (hext : strLower (pathSuffix (UPLOAD_DIR ++ "/" ++ sfn)) ∈ CONVERT_EXTS)
    (hfail : toolOutcome env = Except.error msg) :
    (upload_audio mimeType origName sfn stream env now fs store).1 =
      UploadResponse.r200
        { Meta.base (stem (basename (UPLOAD_DIR ++ "/" ++ sfn))) origName
            (basename (UPLOAD_DIR ++ "/" ++ sfn)) mimeType nbytes now with
          extra := some ⟨none, none, none, some msg⟩
          conversion_error := some msg } ∧
    (upload_audio mimeType origName sfn stream env now fs store).2.2 =
      store.set (stem (basename (UPLOAD_DIR ++ "/" ++ sfn)))
        { Meta.base (stem (basename (UPLOAD_DIR ++ "/" ++ sfn))) origName
            (basename (UPLOAD_DIR ++ "/" ++ sfn)) mimeType nbytes now with
          extra := some ⟨none, none, none, some msg⟩ } := by
  rcases henv : env.convert with emsg | wav
  · have hem : emsg = msg := by simpa [toolOutcome, henv] using hfail
    subst hem
    constructor <;>
      simp [upload_audio, hmime, save_and_convert_upload, hsave, hext,
        runConversion, henv, save_upload_metadata]
  · have hprobe : env.probe = Except.error msg := by
      simpa [toolOutcome, henv] using hfail
    constructor <;>
      simp [upload_audio, hmime, save_and_convert_upload, hsave, hext,
        runConversion, henv, hprobe, save_upload_metadata]

/-- Witness for C5: an `.opus` upload whose ffmpeg run fails still returns
200 with `conversion_error` recorded and no converted fields. -/
theorem C5_conversion_failure_nonfatal_witness :
    (upload_audio "audio/ogg" "voice.opus" "f.opus" [StreamItem.chunk "ab"]
        ⟨Except.error "ffmpeg failed (rc=1)", Except.error "unused"⟩ "t0"
        FS.empty MetaStore.empty).1 =
      UploadResponse.r200
        { Meta.base (stem (basename (UPLOAD_DIR ++ "/" ++ "f.opus"))) "voice.opus"
            (basename (UPLOAD_DIR ++ "/" ++ "f.opus")) "audio/ogg" 2 "t0" with
          extra := some ⟨none, none, none, some "ffmpeg failed (rc=1)"⟩
          conversion_error := some "ffmpeg failed (rc=1)" } := by
  have h1 : (save_upload_file [StreamItem.chunk "ab"]
      (UPLOAD_DIR ++ "/" ++ "f.opus") MAX_FILE_SIZE FS.empty).1 =
      SaveResult.ok 2 := by decide
  have hsave : save_upload_file [StreamItem.chunk "ab"]
      (UPLOAD_DIR ++ "/" ++ "f.opus") MAX_FILE_SIZE FS.empty =
      (SaveResult.ok 2,
        (save_upload_file [StreamItem.chunk "ab"]
          (UPLOAD_DIR ++ "/" ++ "f.opus") MAX_FILE_SIZE FS.empty).2) := by
    rw [← h1]
  exact (C5_conversion_failure_nonfatal "audio/ogg" "voice.opus" "f.opus" "t0"
    "ffmpeg failed (rc=1)" [StreamItem.chunk "ab"]
    ⟨Except.error "ffmpeg failed (rc=1)", Except.error "unused"⟩ FS.empty
    (save_upload_file [StreamItem.chunk "ab"] (UPLOAD_DIR ++ "/" ++ "f.opus")
      MAX_FILE_SIZE FS.empty).2 MetaStore.empty 2 (by decide) hsave
    (by decide) rfl).1

/-- C8: the persisted FileRecord document carries the converted
name/path/duration fields (inside `extra`) exactly when conversion ran and
succeeded, in which case they identify an existing converted file; on a
failed conversion only `conversion_error` is recorded, and for
non-convertible (e.g. already-WAV) uploads no conversion fields are
present at all. -/
theorem C8_converted_fields_iff_conversion (mimeType origName sfn now : String)
    (stream : List StreamItem) (env : ToolEnv) (fs fs1 : FS)
    (store : MetaStore) (nbytes : Nat)
    (hmime : mimeType ∈ ALLOWED_MIME_TYPES)
    (hsave : save_upload_file stream (UPLOAD_DIR ++ "/" ++ sfn) MAX_FILE_SIZE fs =
      (SaveResult.ok nbytes, fs1)) :
    (strLower (pathSuffix (UPLOAD_DIR ++ "/" ++ sfn)) ∈ CONVERT_EXTS →
      ∀ wav dur, env.convert = Except.ok wav → env.probe = Except.ok dur →
        (upload_audio mimeType origName sfn stream env now fs store).2.2
            (stem (basename (UPLOAD_DIR ++ "/" ++ sfn))) =
          some { Meta.base (stem (basename (UPLOAD_DIR ++ "/" ++ sfn))) origName
              (basename (UPLOAD_DIR ++ "/" ++ sfn)) mimeType nbytes now with
            extra := some ⟨some (stem (UPLOAD_DIR ++ "/" ++ sfn) ++ ".wav"),
              some (UPLOAD_DIR ++ "/converted/" ++
                (stem (UPLOAD_DIR ++ "/" ++ sfn) ++ ".wav")),
              some dur, none⟩ } ∧
        (upload_audio mimeType origName sfn stream env now fs store).2.1
            (UPLOAD_DIR ++ "/converted/" ++
              (stem (UPLOAD_DIR ++ "/" ++ sfn) ++ ".wav")) = some wav) ∧
    (strLower (pathSuffix (UPLOAD_DIR ++ "/" ++ sfn)) ∈ CONVERT_EXTS →
      ∀ msg, toolOutcome env = Except.error msg →
        (upload_audio mimeType origName sfn stream env now fs store).2.2
            (stem (basename (UPLOAD_DIR ++ "/" ++ sfn))) =
          some { Meta.base (stem (basename (UPLOAD_DIR ++ "/" ++ sfn))) origName
              (basename (UPLOAD_DIR ++ "/" ++ sfn)) mimeType nbytes now with
            extra := some ⟨none, none, none, some msg⟩ }) ∧
    (strLower (pathSuffix (UPLOAD_DIR ++ "/" ++ sfn)) ∉ CONVERT_EXTS →
      (upload_audio mimeType origName sfn stream env now fs store).2.2
          (stem (basename (UPLOAD_DIR ++ "/" ++ sfn))) =
        some (Meta.base (stem (basename (UPLOAD_DIR ++ "/" ++ sfn))) origName
          (basename (UPLOAD_DIR ++ "/" ++ sfn)) mimeType nbytes now)) := by
  refine ⟨?_, ?_, ?_⟩
  · intro hext wav dur hc hp
    constructor <;>
      simp [upload_audio, hmime, save_and_convert_upload, hsave, hext,
        runConversion, hc, hp, save_upload_metadata, MetaStore.set, FS.write]
  · intro hext msg hfail
    rcases henv : env.convert with emsg | wav
    · have hem : emsg = msg := by simpa [toolOutcome, henv] using hfail
      subst hem
      simp [upload_audio, hmime, save_and_convert_upload, hsave, hext,
        runConversion, henv, save_upload_metadata, MetaStore.set]
    · have hprobe : env.probe = Except.error msg := by
        simpa [toolOutcome, henv] using hfail
      simp [upload_audio, hmime, save_and_convert_upload, hsave, hext,
        runConversion, henv, hprobe, save_upload_metadata, MetaStore.set]
  · intro hext
    simp [upload_audio, hmime, save_and_convert_upload, hsave, hext,
      save_upload_metadata, MetaStore.set, Meta.base]

/-- Witness for C8: an `.opus` upload with both tools succeeding has its
converted artifact on disk at the recorded path. -/
theorem C8_converted_fields_iff_conversion_witness :
    (upload_audio "audio/ogg" "voice.opus" "f.opus" [StreamItem.chunk "ab"]
        ⟨Except.ok "WAVDATA", Except.ok 3⟩ "t0" FS.empty MetaStore.empty).2.1
      (UPLOAD_DIR ++ "/converted/" ++
        (stem (UPLOAD_DIR ++ "/" ++ "f.opus") ++ ".wav")) = some "WAVDATA" := by
  have h1 : (save_upload_file [StreamItem.chunk "ab"]
      (UPLOAD_DIR ++ "/" ++ "f.opus") MAX_FILE_SIZE FS.empty).1 =
      SaveResult.ok 2 := by decide
  have hsave : save_upload_file [StreamItem.chunk "ab"]
      (UPLOAD_DIR ++ "/" ++ "f.opus") MAX_FILE_SIZE FS.empty =
      (SaveResult.ok 2,
        (save_upload_file [StreamItem.chunk "ab"]
          (UPLOAD_DIR ++ "/" ++ "f.opus") MAX_FILE_SIZE FS.empty).2) := by
    rw [← h1]
  exact ((C8_converted_fields_iff_conversion "audio/ogg" "voice.opus" "f.opus"
    "t0" [StreamItem.chunk "ab"] ⟨Except.ok "WAVDATA", Except.ok 3⟩ FS.empty
    (save_upload_file [StreamItem.chunk "ab"] (UPLOAD_DIR ++ "/" ++ "f.opus")
      MAX_FILE_SIZE FS.empty).2 MetaStore.empty 2 (by decide) hsave).1
    (by decide) "WAVDATA" 3 rfl rfl).2

/-- Counterexample to C1 as stated: with the transcript file on disk and a
metadata record whose `transcription_status` is `"failed"`, the call
returns the stored text without inference, but `setdefault` does not
refresh the existing status to `done` — it stays `"failed"`. -/
theorem C1_counterexample :
    (transcribe_audio "/base/uploads/converted/abc.wav" true
        ⟨Except.error "unused", true, true, "t1"⟩
        ⟨(FS.empty.write "/base/uploads/converted/abc.wav" "AUDIO").write
            "/base/data/transcripts/abc.txt" "hello",
          MetaStore.empty.set "abc"
            { Meta.base "abc" "voice.opus" "abc.opus" "audio/ogg" 2 "t0" with
              transcription_status := some "failed" }⟩).result =
        Except.ok "hello" ∧
      ((transcribe_audio "/base/uploads/converted/abc.wav" true
          ⟨Except.error "unused", true, true, "t1"⟩
          ⟨(FS.empty.write "/base/uploads/converted/abc.wav" "AUDIO").write
              "/base/data/transcripts/abc.txt" "hello",
            MetaStore.empty.set "abc"
              { Meta.base "abc" "voice.opus" "abc.opus" "audio/ogg" 2 "t0" with
                transcription_status := some "failed" }⟩).st.store "abc").map
          Meta.transcription_status = some (some "failed") := by
  exact ⟨rfl, by decide⟩

/-- C1 (amended): with the transcript file on disk, `transcribe_audio`
returns the stored text without invoking inference, and best-effort fills
in *absent* status fields with `done`/transcript path via `setdefault`
(an existing status value is kept, not refreshed); consequently a second
call after any successful call (with the transcript write succeeding)
returns the same text and performs no inference. -/
theorem C1_replay_idempotent (path a : String) (env env2 : TEnv)
    (st : SysState) (ha : st.fs path = some a) :
    (∀ txt, st.fs (transcriptPath (stem path)) = some txt →
      (transcribe_audio path true env st).result = Except.ok txt ∧
        (transcribe_audio path true env st).ranInference = false ∧
        (∀ m, st.store (stem path) = some m →
          (transcribe_audio path true env st).st.store =
            writeMeta env.metaWriteOk st.store (stem path)
              { m with
                transcription_status := setD m.transcription_status "done"
                transcript_path := setD m.transcript_path (transcriptPath (stem path))
                transcript_saved_at := setD m.transcript_saved_at env.now })) ∧
      (env.transcriptWriteOk = true →
        ∀ t, (transcribe_audio path true env st).result = Except.ok t →
          (transcribe_audio path true env2
              (transcribe_audio path true env st).st).result = Except.ok t ∧
            (transcribe_audio path true env2
              (transcribe_audio path true env st).st).ranInference = false) := by
  constructor
  · intro txt htp
    exact ⟨(transcribe_replay_core path a txt env st ha htp).1,
      (transcribe_replay_core path a txt env st ha htp).2.1,
      fun m hm => transcribe_replay_store path a txt env st m ha htp hm⟩
  · intro hw t hres
    cases htp : st.fs (transcriptPath (stem path)) with
    | some txt =>
        obtain ⟨r1, _, rfs⟩ := transcribe_replay_core path a txt env st ha htp
        rw [hres] at r1
        have ht : t = txt := Except.ok.inj r1
        rw [ht]
        have ha2 : (transcribe_audio path true env st).st.fs path = some a := by
          rw [rfs]; exact ha
        have htp2 : (transcribe_audio path true env st).st.fs
            (transcriptPath (stem path)) = some txt := by
          rw [rfs]; exact htp
        exact ⟨(transcribe_replay_core path a txt env2
            (transcribe_audio path true env st).st ha2 htp2).1,
          (transcribe_replay_core path a txt env2
            (transcribe_audio path true env st).st ha2 htp2).2.1⟩
    | none =>
        cases hinf : env.inference with
        | error e =>
            have hr := (transcribe_fresh_err_core path a e env st ha htp hinf).1
            rw [hres] at hr
            exact absurd hr (by simp)
        | ok raw =>
            obtain ⟨r1, _, rfs⟩ := transcribe_fresh_ok_core path a raw env st ha htp hinf
            rw [hres] at r1
            have ht : t = raw.trim := Except.ok.inj r1
            rw [ht]
            rw [hw] at rfs
            simp only [if_true] at rfs
            have htp2 : (transcribe_audio path true env st).st.fs
                (transcriptPath (stem path)) = some raw.trim := by
              rw [rfs]; simp [FS.write]
            by_cases hpt : path = transcriptPath (stem path)
            · have ha2 := htp2
              rw [← hpt] at ha2
              exact ⟨(transcribe_replay_core path raw.trim raw.trim env2
                  (transcribe_audio path true env st).st ha2 htp2).1,
                (transcribe_replay_core path raw.trim raw.trim env2
                  (transcribe_audio path true env st).st ha2 htp2).2.1⟩
            · have ha2 : (transcribe_audio path true env st).st.fs path = some a := by
                rw [rfs]; simpa [FS.write, hpt] using ha
              exact ⟨(transcribe_replay_core path a raw.trim env2
                  (transcribe_audio path true env st).st ha2 htp2).1,
                (transcribe_replay_core path a raw.trim env2
                  (transcribe_audio path true env st).st ha2 htp2).2.1⟩

/-- Witness for C1 (amended): a stored transcript is replayed verbatim with
no inference. -/
theorem C1_replay_idempotent_witness :
    (transcribe_audio "/base/uploads/converted/abc.wav" true
        ⟨Except.error "unused", true, true, "t1"⟩
        ⟨(FS.empty.write "/base/uploads/converted/abc.wav" "AUDIO").write
            "/base/data/transcripts/abc.txt" "hello",
          MetaStore.empty.set "abc"
            (Meta.base "abc" "voice.opus" "abc.opus" "audio/ogg" 2 "t0")⟩).result =
      Except.ok "hello" ∧
    (transcribe_audio "/base/uploads/converted/abc.wav" true
        ⟨Except.error "unused", true, true, "t1"⟩
        ⟨(FS.empty.write "/base/uploads/converted/abc.wav" "AUDIO").write
            "/base/data/transcripts/abc.txt" "hello",
          MetaStore.empty.set "abc"
            (Meta.base "abc" "voice.opus" "abc.opus" "audio/ogg" 2 "t0")⟩).ranInference =
      false := by
  have h := C1_replay_idempotent "/base/uploads/converted/abc.wav" "AUDIO"
    ⟨Except.error "unused", true, true, "t1"⟩ ⟨Except.error "unused", true, true, "t1"⟩
    ⟨(FS.empty.write "/base/uploads/converted/abc.wav" "AUDIO").write
        "/base/data/transcripts/abc.txt" "hello",
      MetaStore.empty.set "abc"
        (Meta.base "abc" "voice.opus" "abc.opus" "audio/ogg" 2 "t0")⟩ (by decide)
  exact ⟨(h.1 "hello" (by decide)).1, (h.1 "hello" (by decide)).2.1⟩

/-- C6: when inference fails and a metadata record exists, the record is
marked `failed` with the error message and a finish timestamp (when the
metadata write works), the original error is re-raised either way, and a
failing metadata write is swallowed (store unchanged, same error
re-raised). -/
theorem C6_inference_failure_reraised (path a e : String) (env : TEnv)
    (st : SysState) (m : Meta) (ha : st.fs path = some a)
    (htp : st.fs (transcriptPath (stem path)) = none)
    (hm : st.store (stem path) = some m)
    (hinf : env.inference = Except.error e) :
    (transcribe_audio path true env st).result =
        Except.error (TErr.inferFail e) ∧
      (env.metaWriteOk = true →
        (transcribe_audio path true env st).st.store (stem path) =
          some { m with
            transcription_status := some "failed"
            transcription_started_at := some env.now
            transcription_finished_at := some env.now
            transcription_error := some e }) ∧
      (env.metaWriteOk = false →
        (transcribe_audio path true env st).st.store = st.store) := by
  refine ⟨(transcribe_fresh_err_core path a e env st ha htp hinf).1, ?_, ?_⟩
  · intro hmw
    exact transcribe_fresh_err_store path a e env st m ha htp hinf hm hmw
  · intro hmw
    exact transcribe_nomw path true env st hmw

/-- Witness for C6: a concrete failing inference is re-raised and recorded. -/
theorem C6_inference_failure_reraised_witness :
    (transcribe_audio "/base/uploads/converted/abc.wav" true
        ⟨Except.error "CUDA out of memory", true, true, "t1"⟩
        ⟨FS.empty.write "/base/uploads/converted/abc.wav" "AUDIO",
          MetaStore.empty.set "abc"
            (Meta.base "abc" "voice.opus" "abc.opus" "audio/ogg" 2 "t0")⟩).result =
      Except.error (TErr.inferFail "CUDA out of memory") :=
  (C6_inference_failure_reraised "/base/uploads/converted/abc.wav" "AUDIO"
    "CUDA out of memory" ⟨Except.error "CUDA out of memory", true, true, "t1"⟩
    ⟨FS.empty.write "/base/uploads/converted/abc.wav" "AUDIO",
      MetaStore.empty.set "abc"
        (Meta.base "abc" "voice.opus" "abc.opus" "audio/ogg" 2 "t0")⟩
    (Meta.base "abc" "voice.opus" "abc.opus" "audio/ogg" 2 "t0")
    (by decide) (by decide) (by decide) rfl).1

/-- C10: when inference succeeds but the transcript-file write fails, the
failure is swallowed: the text is still returned, no transcript file exists
at the transcript path, and the metadata record is nevertheless marked
`done` with that transcript path and a snippet. -/
theorem C10_transcript_write_failure_swallowed (path a raw : String)
    (env : TEnv) (st : SysState) (m : Meta) (ha : st.fs path = some a)
    (htp : st.fs (transcriptPath (stem path)) = none)
    (hm : st.store (stem path) = some m)
    (hinf : env.inference = Except.ok raw)
    (hw : env.transcriptWriteOk = false)
    (hmw : env.metaWriteOk = true) :
    (transcribe_audio path true env st).result = Except.ok raw.trim ∧
      (transcribe_audio path true env st).st.fs
        (transcriptPath (stem path)) = none ∧
      (transcribe_audio path true env st).st.store (stem path) =
        some { m with
          transcription_status := some "done"
          transcription_started_at := some env.now
          transcription_finished_at := some env.now
          transcript_path := some (transcriptPath (stem path))
          transcript_saved_at := some env.now
          transcript_snippet := some (raw.trim.take 512) } := by
  obtain ⟨r1, _, rfs⟩ := transcribe_fresh_ok_core path a raw env st ha htp hinf
  refine ⟨r1, ?_, transcribe_fresh_ok_store path a raw env st m ha htp hinf hm hmw⟩
  rw [rfs, hw]
  simpa using htp

/-- Witness for C10: with a failing transcript write the text is still
returned while no transcript file appears on disk. -/
theorem C10_transcript_write_failure_swallowed_witness :
    (transcribe_audio "/base/uploads/converted/abc.wav" true
        ⟨Except.ok "hi", false, true, "t1"⟩
        ⟨FS.empty.write "/base/uploads/converted/abc.wav" "AUDIO",
          MetaStore.empty.set "abc"
            (Meta.base "abc" "voice.opus" "abc.opus" "audio/ogg" 2 "t0")⟩).result =
      Except.ok ("hi".trim) ∧
    (transcribe_audio "/base/uploads/converted/abc.wav" true
        ⟨Except.ok "hi", false, true, "t1"⟩
        ⟨FS.empty.write "/base/uploads/converted/abc.wav" "AUDIO",
          MetaStore.empty.set "abc"
            (Meta.base "abc" "voice.opus" "abc.opus" "audio/ogg" 2 "t0")⟩).st.fs
      (transcriptPath (stem "/base/uploads/converted/abc.wav")) = none := by
  have h := C10_transcript_write_failure_swallowed
    "/base/uploads/converted/abc.wav" "AUDIO" "hi"
    ⟨Except.ok "hi", false, true, "t1"⟩
    ⟨FS.empty.write "/base/uploads/converted/abc.wav" "AUDIO",
      MetaStore.empty.set "abc"
        (Meta.base "abc" "voice.opus" "abc.opus" "audio/ogg" 2 "t0")⟩
    (Meta.base "abc" "voice.opus" "abc.opus" "audio/ogg" 2 "t0")
    (by decide) (by decide) (by decide) rfl rfl rfl
  exact ⟨h.1, h.2.1⟩

/-- A path returned by the existence check exists in the filesystem. -/
theorem resolveExisting_isSome (fs : FS) (cp cp2 : String)
    (h : resolveExisting fs cp = some cp2) : ∃ a, fs cp2 = some a := by
  simp only [resolveExisting] at h
  by_cases h1 : (fs cp).isSome = true
  · rw [if_pos h1] at h
    cases h
    exact Option.isSome_iff_exists.mp h1
  · rw [if_neg h1] at h
    by_cases h2 : isAbsolute cp = true
    · rw [if_pos h2] at h
      exact absurd h (by simp)
    · rw [if_neg h2] at h
      by_cases h3 : (fs (BASE_DIR ++ "/" ++ cp)).isSome = true
      · rw [if_pos h3] at h
        cases h
        exact Option.isSome_iff_exists.mp h3
      · rw [if_neg h3] at h
        exact absurd h (by simp)

/-- Counterexample to C7 as stated: a metadata record from which no
converted path can be resolved makes the route answer 400, not 404. -/
theorem C7_counterexample :
    (get_transcript "abc" ⟨Except.error "unused", true, true, "t1"⟩
        ⟨FS.empty,
          MetaStore.empty.set "abc"
            (Meta.base "abc" "voice.wav" "abc.wav" "audio/wav" 2 "t0")⟩).1 =
      TranscribeResponse.r400 "converted audio path not available in metadata" := by
  decide

/-- C7 (amended): the transcribe-by-ID route returns 404 for an unknown
file id and for a resolved-but-missing converted file, **400** when no
converted path can be resolved from the metadata record, 500 on a
transcription failure, and 200 on success (fresh or idempotent replay). -/
theorem C7_status_mapping (fid : String) (env : TEnv) (st : SysState) :
    (st.store fid = none →
      (get_transcript fid env st).1 =
        TranscribeResponse.r404 "file metadata not found") ∧
    (∀ m, st.store fid = some m → lookupConvertedPath m = none →
      (get_transcript fid env st).1 =
        TranscribeResponse.r400 "converted audio path not available in metadata") ∧
    (∀ m cp, st.store fid = some m → lookupConvertedPath m = some cp →
      resolveExisting st.fs cp = none →
      (get_transcript fid env st).1 =
        TranscribeResponse.r404 "converted audio file not found") ∧
    (∀ m cp cp2 e, st.store fid = some m → lookupConvertedPath m = some cp →
      resolveExisting st.fs cp = some cp2 →
      st.fs (transcriptPath (stem cp2)) = none →
      env.inference = Except.error e →
      (get_transcript fid env st).1 =
        TranscribeResponse.r500 ("transcription failed: " ++ e)) ∧
    (∀ m cp cp2 txt, st.store fid = some m → lookupConvertedPath m = some cp →
      resolveExisting st.fs cp = some cp2 →
      st.fs (transcriptPath (stem cp2)) = some txt →
      (get_transcript fid env st).1 =
        TranscribeResponse.r200 fid txt (transcriptPath fid) "done") ∧
    (∀ m cp cp2 raw, st.store fid = some m → lookupConvertedPath m = some cp →
      resolveExisting st.fs cp = some cp2 →
      st.fs (transcriptPath (stem cp2)) = none →
      env.inference = Except.ok raw →
      (get_transcript fid env st).1 =
        TranscribeResponse.r200 fid raw.trim (transcriptPath fid) "done") := by
  refine ⟨?_, ?_, ?_, ?_, ?_, ?_⟩
  · intro h
    simp [get_transcript, h]
  · intro m hm hl
    simp [get_transcript, hm, hl]
  · intro m cp hm hl hr
    simp [get_transcript, hm, hl, hr]
  · intro m cp cp2 e hm hl hr htp hinf
    obtain ⟨a, ha⟩ := resolveExisting_isSome st.fs cp cp2 hr
    have hres := (transcribe_fresh_err_core cp2 a e env st ha htp hinf).1
    simp [get_transcript, hm, hl, hr, hres]
  · intro m cp cp2 txt hm hl hr htp
    obtain ⟨a, ha⟩ := resolveExisting_isSome st.fs cp cp2 hr
    have hres := (transcribe_replay_core cp2 a txt env st ha htp).1
    simp [get_transcript, hm, hl, hr, hres]
  · intro m cp cp2 raw hm hl hr htp hinf
    obtain ⟨a, ha⟩ := resolveExisting_isSome st.fs cp cp2 hr
    have hres := (transcribe_fresh_ok_core cp2 a raw env st ha htp hinf).1
    simp [get_transcript, hm, hl, hr, hres]

/-- Witness for C7 (amended): a record with a top-level `converted_path`
whose file and transcript both exist yields 200 with the stored text. -/
theorem C7_status_mapping_witness :
    (get_transcript "abc" ⟨Except.error "unused", true, true, "t1"⟩
        ⟨(FS.empty.write "/base/uploads/converted/abc.wav" "AUDIO").write
            "/base/data/transcripts/abc.txt" "hello",
          MetaStore.empty.set "abc"
            { Meta.base "abc" "voice.opus" "abc.opus" "audio/ogg" 2 "t0" with
              converted_path := some "/base/uploads/converted/abc.wav" }⟩).1 =
      TranscribeResponse.r200 "abc" "hello" (transcriptPath "abc") "done" :=
  (C7_status_mapping "abc" ⟨Except.error "unused", true, true, "t1"⟩
      ⟨(FS.empty.write "/base/uploads/converted/abc.wav" "AUDIO").write
          "/base/data/transcripts/abc.txt" "hello",
        MetaStore.empty.set "abc"
          { Meta.base "abc" "voice.opus" "abc.opus" "audio/ogg" 2 "t0" with
            converted_path := some "/base/uploads/converted/abc.wav" }⟩).2.2.2.2.1
    { Meta.base "abc" "voice.opus" "abc.opus" "audio/ogg" 2 "t0" with
      converted_path := some "/base/uploads/converted/abc.wav" }
    "/base/uploads/converted/abc.wav" "/base/uploads/converted/abc.wav" "hello"
    (by decide) (by decide) (by decide) (by decide)

end EchoScribe
